import Mathlib

/-!
Verification of the cats CRUD walkthrough (NestJS webinar repository).

The repository exposes a single `Cat` resource through a controller that
delegates to a `CatsService`.  Two service variants occur in the source:

* the in-memory variant (README, `cats.service.ts` first version):
  `create(cat) { this.cats.push(cat); return cat }`,
  `findAll() { return this.cats }`;
* the repository-backed variant (`src/cats/cats.service.ts`):
  `create(cat) { return this.repository.save(cat) }`,
  `findAll() { return this.repository.find() }`,
  over `CatEntity` with `@PrimaryGeneratedColumn() id`,
  `@Column() name`, `@Column({nullable: true}) color?`, and
  `@Column({type: 'timestamp', update: false, default: () => 'now()'}) created`.

The embedding below models both variants.  TypeORM `save`/`find` over the
declared entity is modelled with its documented semantics: `save` inserts a
new row (generating `id` from the table sequence when the entity carries
none, and applying the column default `now()` only when the entity carries
no `created` value), or updates the row whose `id` matches an id carried by
the entity; a column declared `update: false` is never written by an update.
Timestamps are modelled as natural numbers; the current time is passed
explicitly as the `now` argument.
-/

/-- A `Cat` value as the controller receives and returns it
(`cat.interface.ts`).  Every field a JSON request body may omit is an
`Option`: `id` and `created` are normally store-assigned, `color` is
declared optional. -/
structure Cat where
  id : Option Nat
  name : String
  color : Option String
  created : Option Nat
deriving Repr, DecidableEq, Inhabited

/-- A persisted row of the `cats` table (`cat.entity.ts`): `id` and
`created` are always present in the database, `color` is nullable. -/
structure CatRow where
  id : Nat
  name : String
  color : Option String
  created : Nat
deriving Repr, DecidableEq, Inhabited

/-- The `Cat` value the repository-backed service returns for a stored row
(the entity with all populated columns). -/
def CatRow.toCat (r : CatRow) : Cat :=
  { id := some r.id, name := r.name, color := r.color, created := some r.created }

/-! ## In-memory variant (`private readonly cats: Cat[] = []`) -/

/-- State of the in-memory `CatsService`: the `cats` array. -/
structure MemState where
  cats : List Cat
deriving Repr, DecidableEq

def MemState.empty : MemState := { cats := [] }

/-- `create(cat) { this.cats.push(cat); return cat }` of the in-memory
service: appends the request body verbatim and returns it. -/
def memCreate (s : MemState) (cat : Cat) : MemState × Cat :=
  ({ cats := s.cats ++ [cat] }, cat)

/-- `findAll() { return this.cats }` of the in-memory service. -/
def memFindAll (s : MemState) : List Cat :=
  s.cats

/-- Runs a sequence of in-memory `create` calls. -/
def runMemCreates (s : MemState) : List Cat → MemState
  | [] => s
  | c :: rest => runMemCreates (memCreate s c).1 rest

/-! ## Repository-backed variant (`this.repository.save / .find`) -/

/-- State of the `cats` table: the auto-increment sequence (Postgres serial,
starting at 1) and the stored rows in insertion order. -/
structure DbState where
  nextId : Nat
  rows : List CatRow
deriving Repr, DecidableEq

def DbState.empty : DbState := { nextId := 1, rows := [] }

def DbState.lookup (s : DbState) (i : Nat) : Option CatRow :=
  s.rows.find? (fun r => r.id == i)

/-- TypeORM `repository.save(cat)` over `CatEntity`.  If the entity carries
an `id` of an existing row, the row is updated: `name` and `color` are
written, `created` is not (`update: false`).  Otherwise a row is inserted:
its `id` is the carried one, or the next sequence value when none is
carried; its `created` is the carried value, or the column default `now()`
when none is carried.  `save` returns the saved entity (Postgres
`RETURNING` reloads generated/default columns). -/
def repoSave (s : DbState) (cat : Cat) (now : Nat) : DbState × CatRow :=
  match cat.id with
  | some i =>
    match s.lookup i with
    | some old =>
      let row : CatRow := { id := i, name := cat.name, color := cat.color, created := old.created }
      ({ s with rows := s.rows.map (fun r => if r.id == i then row else r) }, row)
    | none =>
      let row : CatRow := { id := i, name := cat.name, color := cat.color, created := cat.created.getD now }
      ({ s with rows := s.rows ++ [row] }, row)
  | none =>
    let row : CatRow :=
      { id := s.nextId, name := cat.name, color := cat.color, created := cat.created.getD now }
    ({ nextId := s.nextId + 1, rows := s.rows ++ [row] }, row)

/-- `findAll() { return this.repository.find() }`: all rows of the table. -/
def repoFindAll (s : DbState) : List CatRow :=
  s.rows

/-- Runs a sequence of repository-backed `create` calls, each with the
current time at which it executes. -/
def runCreates (s : DbState) : List (Cat × Nat) → DbState
  | [] => s
  | (c, t) :: rest => runCreates (repoSave s c t).1 rest

/-! ## Repository-backed `CatsService` with its (unused) `cats` field -/

/-- Full state of the repository-backed `CatsService`
(`src/cats/cats.service.ts`): the private `cats` array it still declares,
plus the injected repository's table. -/
structure SvcState where
  cats : List Cat
  db : DbState
deriving Repr, DecidableEq

/-- `async create(cat) { return this.repository.save(cat) }`. -/
def svcCreate (st : SvcState) (cat : Cat) (now : Nat) : SvcState × CatRow :=
  let p := repoSave st.db cat now
  ({ st with db := p.1 }, p.2)

/-- `async findAll() { return this.repository.find() }`. -/
def svcFindAll (st : SvcState) : List CatRow :=
  st.db.rows

/-- Runs a sequence of repository-backed service `create` calls. -/
def runSvc (st : SvcState) : List (Cat × Nat) → SvcState
  | [] => st
  | (c, t) :: rest => runSvc (svcCreate st c t).1 rest

/-! ## Store interface and controller -/

/-- The store contract the controller programs against: the injected
`CatsService` exposes `create` and `findAll`.  `σ` is the backend's state;
`create` also receives the current time (the in-memory backend ignores
it). -/
structure Store (σ : Type) where
  create : σ → Cat → Nat → σ × Cat
  findAll : σ → List Cat

/-- The in-memory `CatsService` as a `Store`. -/
def memStore : Store MemState where
  create := fun s c _ => memCreate s c
  findAll := memFindAll

/-- The repository-backed `CatsService` as a `Store`: responses are the
saved entities with their populated columns. -/
def dbStore : Store DbState where
  create := fun s c now =>
    let p := repoSave s c now
    (p.1, p.2.toCat)
  findAll := fun s => (repoFindAll s).map CatRow.toCat

/-- `CatsController.create`: `return this.catsService.create(cat)`. -/
def CatsController.create {σ : Type} (svc : Store σ) (s : σ) (cat : Cat) (now : Nat) : σ × Cat :=
  svc.create s cat now

/-- `CatsController.findAll`: `return this.catsService.findAll()`. -/
def CatsController.findAll {σ : Type} (svc : Store σ) (s : σ) : List Cat :=
  svc.findAll s

/-! ## Diagnostic endpoint -/

/-- `AppController.ping`: returns the template literal
built from the `user-agent` header. -/
def ping (userAgent : String) : String :=
  "pong - " ++ userAgent

/-! ## Response shape (from the spec's words, for the refinement claim) -/

/-- Modelled from the spec: the observable shape of a create/list response
record, `{id, name, color?, created}` — which of the normally
store-populated fields (`id`, `created`) are present.  `name` is always
present and `color` is optional in the contract, so only the presence of
`id` and `created` distinguishes shapes. -/
def fieldShape (c : Cat) : Bool × Bool :=
  (c.id.isSome, c.created.isSome)

/-! ## Helper lemmas -/

/-- Running in-memory creates appends the requests, in order, to the
`cats` array. -/
lemma runMemCreates_cats (cs : List Cat) :
    ∀ s : MemState, (runMemCreates s cs).cats = s.cats ++ cs := by
  induction cs with
  | nil => intro s; simp [runMemCreates]
  | cons c rest ih =>
    intro s
    simp [runMemCreates, memCreate, ih]

/-- The repository-backed service never touches its private `cats`
array across any sequence of create calls. -/
lemma runSvc_cats (reqs : List (Cat × Nat)) :
    ∀ st : SvcState, (runSvc st reqs).cats = st.cats := by
  induction reqs with
  | nil => intro st; simp [runSvc]
  | cons p rest ih =>
    intro st
    obtain ⟨c, t⟩ := p
    simp [runSvc, svcCreate, ih]

/-- Well-formedness of the table: ids are pairwise distinct (the primary
key constraint) and below the sequence's next value. -/
def DbWf (s : DbState) : Prop :=
  (s.rows.Pairwise fun a b => a.id ≠ b.id) ∧ ∀ r ∈ s.rows, r.id < s.nextId

lemma DbWf.empty : DbWf DbState.empty := by
  constructor
  · simp [DbState.empty]
  · simp [DbState.empty]

/-- A save that carries no id inserts a fresh row with the sequence value
as id, and preserves well-formedness. -/
lemma repoSave_wf (s : DbState) (cat : Cat) (now : Nat)
    (hid : cat.id = none) (hw : DbWf s) :
    DbWf (repoSave s cat now).1 ∧
      (repoSave s cat now).1.rows = s.rows ++ [(repoSave s cat now).2] ∧
      (repoSave s cat now).2.id = s.nextId := by
  obtain ⟨hpw, hlt⟩ := hw
  refine ⟨⟨?_, ?_⟩, ?_, ?_⟩
  · simp only [repoSave, hid, List.pairwise_append]
    refine ⟨hpw, by simp, ?_⟩
    intro a ha b hb
    simp only [List.mem_singleton] at hb
    subst hb
    exact Nat.ne_of_lt (hlt a ha)
  · intro r hr
    simp only [repoSave, hid, List.mem_append, List.mem_singleton] at hr ⊢
    rcases hr with hr | hr
    · exact Nat.lt_succ_of_lt (hlt r hr)
    · subst hr; exact Nat.lt_succ_self _
  · simp [repoSave, hid]
  · simp [repoSave, hid]

/-- Well-formedness is preserved across any run of id-less creates. -/
lemma runCreates_wf (reqs : List (Cat × Nat)) :
    ∀ s : DbState, (∀ p ∈ reqs, p.1.id = none) → DbWf s →
      DbWf (runCreates s reqs) := by
  induction reqs with
  | nil => intro s _ hw; simpa [runCreates] using hw
  | cons p rest ih =>
    intro s h hw
    obtain ⟨c, t⟩ := p
    have hc : c.id = none := h (c, t) (by simp)
    have hstep := (repoSave_wf s c t hc hw).1
    exact ih _ (fun q hq => h q (by simp [hq])) hstep

/-! ## Claims -/

/-- C9: for every user-agent string `s`, `GET /ping` returns exactly
`"pong - "` concatenated with `s`, independent of any other state. -/
theorem C9_ping_returns_pong_concat (s : String) : ping s = "pong - " ++ s :=
  rfl

/-- C8: a create request supplying `name` but omitting `color` succeeds
(both create operations are total) and the returned Cat has `color`
absent, for the in-memory service and for the repository-backed service
alike, from any state. -/
theorem C8_missing_color_is_absent_not_error (ms : MemState) (ds : DbState)
    (now : Nat) (nm : String) :
    ((memCreate ms { id := none, name := nm, color := none, created := none }).2).color = none ∧
    ((repoSave ds { id := none, name := nm, color := none, created := none } now).2).color = none :=
  ⟨rfl, rfl⟩

/-- C4: the controller's `create` and `findAll` delegate to the injected
store and return its result unmodified, for every store implementation,
state and request; the controller threads no state of its own (its result
state is exactly the store's result state). -/
theorem C4_controller_delegates {σ : Type} (svc : Store σ) (s : σ) (cat : Cat) (now : Nat) :
    CatsController.create svc s cat now = svc.create s cat now ∧
    CatsController.findAll svc s = svc.findAll s :=
  ⟨rfl, rfl⟩

/-- C10: the private `cats` array of the repository-backed service is dead
state: `create` leaves it unchanged and its result depends only on the
repository, `findAll` reads only the repository, and across any sequence
of creates an initially empty `cats` array stays empty. -/
theorem C10_private_cats_array_is_dead_state (cs : List Cat) (db : DbState)
    (cat : Cat) (now : Nat) (reqs : List (Cat × Nat)) :
    (svcCreate ⟨cs, db⟩ cat now).1.cats = cs ∧
    (svcCreate ⟨cs, db⟩ cat now).2 = (repoSave db cat now).2 ∧
    (svcCreate ⟨cs, db⟩ cat now).1.db = (repoSave db cat now).1 ∧
    svcFindAll ⟨cs, db⟩ = repoFindAll db ∧
    (runSvc ⟨[], db⟩ reqs).cats = [] :=
  ⟨rfl, rfl, rfl, rfl, runSvc_cats reqs ⟨[], db⟩⟩

/-- C3: starting from the empty in-memory store, after any sequence of
create calls `findAll` returns exactly as many records as there were
calls, and the i-th record carries exactly the i-th call's `name` and
`color`. -/
theorem C3_findAll_returns_each_created_record (cs : List Cat) :
    (memFindAll (runMemCreates MemState.empty cs)).length = cs.length ∧
    (memFindAll (runMemCreates MemState.empty cs)).map (fun c => (c.name, c.color)) =
      cs.map (fun c => (c.name, c.color)) := by
  have h := runMemCreates_cats cs MemState.empty
  constructor
  · simp only [memFindAll]
    rw [h]
    simp [MemState.empty]
  · simp only [memFindAll]
    rw [h]
    simp [MemState.empty]

/-- C6: the in-memory `findAll` returns the full stored collection in
insertion order — the result of any create sequence from the empty store
is exactly that sequence, with no element dropped, added, reordered,
filtered or paginated. -/
theorem C6_findAll_is_insertion_order (cs : List Cat) :
    memFindAll (runMemCreates MemState.empty cs) = cs := by
  have h := runMemCreates_cats cs MemState.empty
  simp only [memFindAll]
  rw [h]
  simp [MemState.empty]

/-- C1 counterexample: a create request whose body carries `created = 42`
is saved by the repository-backed store with `created = 42` — exactly the
caller-supplied value (and not the store's current time 100).  The caller's
`created` field is not ignored or overwritten. -/
theorem C1_counterexample_caller_created_persisted :
    ((repoSave DbState.empty
        { id := none, name := "Tom", color := none, created := some 42 } 100).2).created = 42 ∧
      (42 : Nat) ≠ 100 :=
  ⟨rfl, by decide⟩

/-- C1 amended: when the create request carries no `created` (and no `id`,
as in the specified lifecycle), the stored `created` is the store's
current time; a caller-supplied `created` is persisted as given rather
than overwritten. -/
theorem C1_created_defaults_to_now (s : DbState) (cat : Cat) (now : Nat)
    (hid : cat.id = none) (hcr : cat.created = none) :
    ((repoSave s cat now).2).created = now := by
  simp [repoSave, hid, hcr]

/-- C1 amended, witness: creating `{name: "Felix"}` at time 100 stores
`created = 100`. -/
theorem C1_created_defaults_to_now_witness :
    (({ id := none, name := "Felix", color := none, created := none } : Cat).id = none) ∧
    (({ id := none, name := "Felix", color := none, created := none } : Cat).created = none) ∧
    ((repoSave DbState.empty
        { id := none, name := "Felix", color := none, created := none } 100).2).created = 100 :=
  ⟨rfl, rfl,
    C1_created_defaults_to_now DbState.empty
      { id := none, name := "Felix", color := none, created := none } 100 rfl rfl⟩

/-- The create request used for the C2 duplicate-input scenario. -/
def tomReq : Cat :=
  { id := none, name := "Tom", color := some "black", created := none }

/-- C2 counterexample: in the in-memory variant, two create calls with the
identical body `{name: "Tom", color: "black"}` store two Cats whose `id`
fields are equal (both absent) — the store assigns no ids at all, so the
two records do not receive distinct `id` values. -/
theorem C2_counterexample_mem_ids_not_distinct :
    ((runMemCreates MemState.empty [tomReq, tomReq]).cats.getD 0 default).id =
      ((runMemCreates MemState.empty [tomReq, tomReq]).cats.getD 1 default).id ∧
    (runMemCreates MemState.empty [tomReq, tomReq]).cats.length = 2 :=
  ⟨rfl, rfl⟩

/-- C2 amended: in the repository-backed store, after any sequence of
create calls in which the caller supplies no `id` (the specified
lifecycle), the stored rows carry pairwise distinct `id` values — in
particular two creates with identical `name`/`color` receive distinct
ids.  The in-memory variant assigns no ids. -/
theorem C2_db_ids_pairwise_distinct (reqs : List (Cat × Nat))
    (h : ∀ p ∈ reqs, p.1.id = none) :
    (runCreates DbState.empty reqs).rows.Pairwise fun a b => a.id ≠ b.id :=
  (runCreates_wf reqs DbState.empty h DbWf.empty).1

/-- C2 amended, witness: two identical `{name: "Tom", color: "black"}`
creates receive ids 1 and 2, which are pairwise distinct. -/
theorem C2_db_ids_pairwise_distinct_witness :
    (∀ p ∈ ([(tomReq, 1), (tomReq, 2)] : List (Cat × Nat)), p.1.id = none) ∧
    (runCreates DbState.empty [(tomReq, 1), (tomReq, 2)]).rows.map (fun r => r.id) = [1, 2] ∧
    ((runCreates DbState.empty [(tomReq, 1), (tomReq, 2)]).rows.Pairwise fun a b => a.id ≠ b.id) :=
  ⟨by decide, by decide, C2_db_ids_pairwise_distinct [(tomReq, 1), (tomReq, 2)] (by decide)⟩

/-- C5 counterexample: for the equivalent input `{name: "Felix"}` from
empty stores, the volatile backend's create response lacks `id` and
`created` (it echoes the body) while the durable backend's response
carries both — the observable response shapes differ, so substituting one
backend for the other changes the Endpoint's observable contract. -/
theorem C5_counterexample_shapes_differ :
    fieldShape (CatsController.create memStore MemState.empty
        { id := none, name := "Felix", color := none, created := none } 7).2 ≠
      fieldShape (CatsController.create dbStore DbState.empty
        { id := none, name := "Felix", color := none, created := none } 7).2 := by
  decide

/-- C5 amended: both backends implement the same `Store` interface with
identical response types, and the create responses have identical field
shapes exactly when the caller already supplies `id` and `created`; for
inputs omitting either (the specified lifecycle), the volatile backend's
response lacks the field while the durable backend's response carries
it. -/
theorem C5_shapes_agree_on_full_inputs (ms : MemState) (ds : DbState)
    (cat : Cat) (now : Nat) (h1 : cat.id.isSome = true) (h2 : cat.created.isSome = true) :
    fieldShape (CatsController.create memStore ms cat now).2 =
      fieldShape (CatsController.create dbStore ds cat now).2 := by
  have hm : fieldShape (CatsController.create memStore ms cat now).2 =
      (cat.id.isSome, cat.created.isSome) := rfl
  have hd : fieldShape (CatsController.create dbStore ds cat now).2 = (true, true) := by
    rcases cat with ⟨cid, nm, col, cr⟩
    cases cid with
    | none => rfl
    | some i =>
      cases h : ds.lookup i with
      | none =>
        simp [CatsController.create, dbStore, repoSave, h, fieldShape, CatRow.toCat]
      | some old =>
        simp [CatsController.create, dbStore, repoSave, h, fieldShape, CatRow.toCat]
  rw [hm, hd, h1, h2]

/-- C5 amended, witness: for a full request body (id, name, color and
created all supplied) the two backends' create responses have the same
shape. -/
theorem C5_shapes_agree_on_full_inputs_witness :
    (({ id := some 3, name := "Tom", color := some "black", created := some 9 } : Cat).id.isSome
        = true) ∧
    (({ id := some 3, name := "Tom", color := some "black", created := some 9 } : Cat).created.isSome
        = true) ∧
    fieldShape (CatsController.create memStore MemState.empty
        { id := some 3, name := "Tom", color := some "black", created := some 9 } 7).2 =
      fieldShape (CatsController.create dbStore DbState.empty
        { id := some 3, name := "Tom", color := some "black", created := some 9 } 7).2 :=
  ⟨rfl, rfl,
    C5_shapes_agree_on_full_inputs MemState.empty DbState.empty
      { id := some 3, name := "Tom", color := some "black", created := some 9 } 7 rfl rfl⟩

/-- C7: no operation changes the `created` field of an existing record.
In the durable store, whenever the table satisfies its primary-key
invariant (pairwise distinct ids), every row present before a save is
still present afterwards with the same `id` and the same `created` — the
`update: false` column is never rewritten, even by a save carrying that
row's id and a new `created` value.  In the in-memory store, a create
leaves every existing array slot untouched. -/
theorem C7_created_never_changes (s : DbState) (cat : Cat) (now : Nat) (r : CatRow)
    (hpw : s.rows.Pairwise fun a b => a.id ≠ b.id) (hr : r ∈ s.rows) :
    (∃ r2 ∈ (repoSave s cat now).1.rows, r2.id = r.id ∧ r2.created = r.created) ∧
    ∀ (ms : MemState) (c : Cat), (memCreate ms c).1.cats.take ms.cats.length = ms.cats := by
  constructor
  · rcases cat with ⟨cid, nm, col, cr⟩
    cases cid with
    | none =>
      refine ⟨r, ?_, rfl, rfl⟩
      simp only [repoSave]
      exact List.mem_append_left _ hr
    | some i =>
      cases h : s.lookup i with
      | none =>
        refine ⟨r, ?_, rfl, rfl⟩
        simp only [repoSave, h]
        exact List.mem_append_left _ hr
      | some old =>
        have hold_mem : old ∈ s.rows := List.mem_of_find?_eq_some h
        have hold_id : old.id = i := by
          have hp := List.find?_some h
          simpa using hp
        by_cases hri : r.id = i
        · have hro : r = old := by
            by_contra hne
            have hforall := List.Pairwise.forall (fun a b hab => Ne.symm hab) hpw hr hold_mem hne
            exact hforall (by rw [hri, hold_id])
          refine ⟨{ id := i, name := nm, color := col, created := old.created }, ?_, ?_, ?_⟩
          · simp only [repoSave, h]
            refine List.mem_map.mpr ⟨r, hr, ?_⟩
            simp [hri]
          · simp [hri]
          · rw [hro]
        · refine ⟨r, ?_, rfl, rfl⟩
          simp only [repoSave, h]
          refine List.mem_map.mpr ⟨r, hr, ?_⟩
          simp [hri]
  · intro ms c
    simp [memCreate]

/-- The row stored before the C7 witness scenario's save. -/
def row0 : CatRow := { id := 1, name := "Tom", color := some "black", created := 5 }

/-- A one-row table in which `row0` exists. -/
def s0 : DbState := { nextId := 2, rows := [row0] }

/-- A save request carrying `row0`'s id and a different `created`. -/
def upd0 : Cat := { id := some 1, name := "Tomas", color := none, created := some 99 }

/-- C7 witness: saving over the existing row with `created = 99` in the
body leaves the stored `created` at 5. -/
theorem C7_created_never_changes_witness :
    (s0.rows.Pairwise fun a b => a.id ≠ b.id) ∧ row0 ∈ s0.rows ∧
    (repoSave s0 upd0 7).1.rows.map (fun r => r.created) = [5] ∧
    ((∃ r2 ∈ (repoSave s0 upd0 7).1.rows, r2.id = row0.id ∧ r2.created = row0.created) ∧
      ∀ (ms : MemState) (c : Cat), (memCreate ms c).1.cats.take ms.cats.length = ms.cats) :=
  ⟨by simp [s0], by simp [s0], by decide,
    C7_created_never_changes s0 upd0 7 row0 (by simp [s0]) (by simp [s0])⟩
